import Mathlib

/-!
Verification development for a slice of a scheduling/booking web application.

Three components are embedded shallowly:

1. The booking-list grouping pipeline (recurring dedup, bucketing of
   bookings into today / current month / future months, and row emission
   with separators), from the bookings list view component.
2. The accessible-users resolver over a membership store
   (`getAccessibleUsers` / `retrieveOrgScopedAccessibleUsers`, in two
   variants that differ on whether the own membership of the admin must be
   accepted).
3. The team-group-mapping authorization guard
   (`userCanCreateTeamGroupMapping`).

Conventions of the embedding:
* Timestamps are local civil times in the reference time zone of the caller,
  modelled as a year/month/day/millisecond-of-day record with
  lexicographic ordering; this mirrors the source, which converts every
  instant to the time zone of the user before comparing or formatting.
* The data store (memberships, teams) is passed explicitly as a value;
  `findFirst` becomes `List.find?` and `findMany` becomes `List.filter`.
* The translation function `t` is a parameter; `tEn` is the English
  table used by concrete statements.
* JavaScript truthiness on numeric ids (`!organizationId`, `if (teamId)`)
  is modelled by an explicit comparison with 0.
-/

/-- A local civil instant: calendar date plus milliseconds within the day,
in the reference time zone of the caller. -/
structure Instant where
  year : Nat
  month : Nat
  day : Nat
  ms : Nat
deriving DecidableEq, Repr

/-- Strict chronological order on local instants (dayjs `isBefore` at
millisecond granularity): lexicographic on (year, month, day, ms). -/
def Instant.before (a b : Instant) : Bool :=
  decide (a.year < b.year) || (a.year == b.year &&
    (decide (a.month < b.month) || (a.month == b.month &&
      (decide (a.day < b.day) || (a.day == b.day && decide (a.ms < b.ms))))))

/-- Same calendar date, i.e. equal "YYYY-MM-DD" format strings. -/
def Instant.sameDate (a b : Instant) : Bool :=
  a.year == b.year && a.month == b.month && a.day == b.day

/-- Gregorian leap-year rule, as used by the date library. -/
def isLeapYear (y : Nat) : Bool :=
  (y % 4 == 0 && y % 100 != 0) || y % 400 == 0

/-- Number of days in a Gregorian month. -/
def daysInMonth (y m : Nat) : Nat :=
  if m == 2 then (if isLeapYear y then 29 else 28)
  else if m == 4 || m == 6 || m == 9 || m == 11 then 30
  else 31

/-- Model of `now.startOf("month")`: the first millisecond of the current month. -/
def monthStart (now : Instant) : Instant :=
  { year := now.year, month := now.month, day := 1, ms := 0 }

/-- Model of `now.endOf("month")`: the last millisecond of the current month. -/
def monthEnd (now : Instant) : Instant :=
  { year := now.year, month := now.month, day := daysInMonth now.year now.month,
    ms := 86399999 }

/-- The "YYYY-MM" bucket key of an instant, as a (year, month) pair.
Sorting these pairs lexicographically coincides with the string sort used in the source, of zero-padded "YYYY-MM" keys. -/
def monthKeyOf (t : Instant) : Nat × Nat := (t.year, t.month)

/-- English month name, for the `format("MMMM YYYY")` separator label. -/
def monthName (m : Nat) : String :=
  if m == 1 then "January" else if m == 2 then "February"
  else if m == 3 then "March" else if m == 4 then "April"
  else if m == 5 then "May" else if m == 6 then "June"
  else if m == 7 then "July" else if m == 8 then "August"
  else if m == 9 then "September" else if m == 10 then "October"
  else if m == 11 then "November" else if m == 12 then "December"
  else "Invalid Date"

/-- Separator label for a future-month bucket: `dayjs(key).format("MMMM YYYY")`. -/
def monthLabel (k : Nat × Nat) : String :=
  monthName k.2 ++ " " ++ toString k.1

/-- A booking record, restricted to the fields the grouping pipeline reads.
`startTime` is the start of the booking already expressed in the reference
time zone of the caller. -/
structure Booking where
  uid : String
  startTime : Instant
  recurringEventId : Option String
deriving DecidableEq, Repr

/-- An entry of `query.data.recurringInfo`. -/
structure RecurringInfo where
  recurringEventId : Option String
deriving DecidableEq, Repr

/-- The tagged row union: a data row wrapping a booking plus derived flags,
or a separator row carrying only a label. -/
inductive RowData where
  | data (booking : Booking) (isToday : Bool) (recurringInfo : Option RecurringInfo)
  | separator (label : String)
deriving DecidableEq, Repr

/-- The result of the `groupedBookings` memo: today bucket, rest-of-current-
month bucket, and future-month buckets as an insertion-ordered association
list keyed by (year, month). -/
structure GroupedBookings where
  today : List RowData
  currentMonth : List RowData
  monthBuckets : List ((Nat × Nat) × List RowData)
deriving DecidableEq, Repr

/-- The statuses under which `filterBookings` deduplicates recurring series:
`status === "recurring" || status == "unconfirmed" || status === "cancelled"`. -/
def dedupStatuses (status : String) : Bool :=
  status == "recurring" || status == "unconfirmed" || status == "cancelled"

/-- Model of `bookings.filter(filterBookings)` with the mutable `shownBookings` map
made explicit as the list `seen` of recurring ids already encountered.
When `dedup` is on, a booking with a recurring id is kept only if its id
has not been seen; bookings without a recurring id are always kept.
When `dedup` is off, every booking is kept. -/
def filterBookingsAux : Bool → List Booking → List String → List Booking
  | _, [], _ => []
  | false, b :: bs, seen => b :: filterBookingsAux false bs seen
  | true, b :: bs, seen =>
    match b.recurringEventId with
    | none => b :: filterBookingsAux true bs seen
    | some rid =>
      if rid ∈ seen then filterBookingsAux true bs seen
      else b :: filterBookingsAux true bs (rid :: seen)

/-- The bookings surviving the dedup step for a given status tab. -/
def keptBookings (status : String) (bookings : List Booking) : List Booking :=
  filterBookingsAux (dedupStatuses status) bookings []

/-- The data row built for a kept booking: the booking, the `isToday` flag,
and the matching entry of `recurringInfo`. -/
def rowOf (now : Instant) (recInfo : List RecurringInfo) (b : Booking) : RowData :=
  .data b (b.startTime.sameDate now)
    (recInfo.find? fun info => info.recurringEventId == b.recurringEventId)

/-- Model of `monthBuckets[monthKey].push(rowData)` on the association list: append to
the existing bucket, or create a new bucket at the end. -/
def pushBucket (k : Nat × Nat) (r : RowData) :
    List ((Nat × Nat) × List RowData) → List ((Nat × Nat) × List RowData)
  | [] => [(k, [r])]
  | e :: es => if e.1 = k then (e.1, e.2 ++ [r]) :: es else e :: pushBucket k r es

/-- One step of the classification loop: route the row of the booking by the
if/else-if chain of the source (today; strictly inside the current month;
strictly after the end of the current month; otherwise no bucket). -/
def classifyStep (now : Instant) (recInfo : List RecurringInfo)
    (g : GroupedBookings) (b : Booking) : GroupedBookings :=
  let row := rowOf now recInfo b
  if b.startTime.sameDate now then
    { g with today := g.today ++ [row] }
  else if (monthStart now).before b.startTime && b.startTime.before (monthEnd now) then
    { g with currentMonth := g.currentMonth ++ [row] }
  else if (monthEnd now).before b.startTime then
    { g with monthBuckets := pushBucket (monthKeyOf b.startTime) row g.monthBuckets }
  else g

/-- The `groupedBookings` memo: dedup, then classify every kept booking. -/
def groupedBookings (now : Instant) (recInfo : List RecurringInfo)
    (status : String) (bookings : List Booking) : GroupedBookings :=
  (keptBookings status bookings).foldl (classifyStep now recInfo) ⟨[], [], []⟩

/-- Rows of the bucket stored under key `k` (empty when absent). -/
def bucketRows (k : Nat × Nat) : List ((Nat × Nat) × List RowData) → List RowData
  | [] => []
  | e :: es => if e.1 = k then e.2 else bucketRows k es

/-- Boolean order on (year, month) keys matching the lexicographic
string sort used in the source of zero-padded "YYYY-MM" keys. -/
def keyLe (a b : Nat × Nat) : Bool :=
  decide (a.1 < b.1) || (a.1 == b.1 && decide (a.2 ≤ b.2))

/-- Strict chronological order on (year, month) keys. -/
def keyLt (a b : Nat × Nat) : Prop :=
  a.1 < b.1 ∨ (a.1 = b.1 ∧ a.2 < b.2)

/-- Model of `Object.keys(monthBuckets).sort()` followed by per-key lookup: since the
keys of the association list are distinct, this is sorting the entries by
key. -/
def sortBuckets (l : List ((Nat × Nat) × List RowData)) :
    List ((Nat × Nat) × List RowData) :=
  l.mergeSort fun a b => keyLe a.1 b.1

/-- The `flatData` memo: current-month rows then future-month rows in bucket
insertion order, no separators. -/
def flatData (g : GroupedBookings) : List RowData :=
  g.currentMonth ++ (g.monthBuckets.map Prod.snd).flatten

/-- The `finalData` memo: for status "upcoming", labeled sections for Today,
This Month and each (sorted) future month; otherwise `flatData`. -/
def finalData (t : String → String) (status : String) (g : GroupedBookings) :
    List RowData :=
  if status ≠ "upcoming" then flatData g
  else
    (if decide (g.today.length > 0) then RowData.separator (t "today") :: g.today else []) ++
    (if decide (g.currentMonth.length > 0) then
      RowData.separator (t "this_month") :: g.currentMonth else []) ++
    ((sortBuckets g.monthBuckets).flatMap fun e =>
      if decide (e.2.length > 0) then RowData.separator (monthLabel e.1) :: e.2 else [])

/-- The whole pipeline: dedup, group, emit rows. -/
def buildRows (t : String → String) (now : Instant) (recInfo : List RecurringInfo)
    (status : String) (bookings : List Booking) : List RowData :=
  finalData t status (groupedBookings now recInfo status bookings)

/-- The English translation table for the two localized separator labels. -/
def tEn (s : String) : String :=
  if s == "today" then "Today" else if s == "this_month" then "This Month" else s

/-! ## Accessible-users resolver -/

/-- The role of a membership. -/
inductive MembershipRole where
  | OWNER | ADMIN | MEMBER
deriving DecidableEq, Repr

/-- A row of the membership table. -/
structure MembershipRow where
  userId : Int
  teamId : Int
  role : MembershipRole
  accepted : Bool
deriving DecidableEq, Repr

/-- A row of the team table, restricted to what the resolver reads. -/
structure OrgTeam where
  id : Int
  isOrganization : Bool
deriving DecidableEq, Repr

/-- The relational store the resolver queries. -/
structure Store where
  memberships : List MembershipRow
  teams : List OrgTeam
deriving DecidableEq, Repr

/-- Queries the resolver can issue against the membership table. -/
inductive MQuery where
  | findFirstAdmin | findManyMembers
deriving DecidableEq, Repr

/-- Model of `prisma.membership.findFirst` for the organization-admin
membership of the admin (first variant: no `accepted` condition on the admin), selecting
`teamId`. -/
def adminOrgLookup (s : Store) (adminUserId : Int) : Option Int :=
  (s.memberships.find? fun m =>
    m.userId == adminUserId &&
    (m.role == MembershipRole.OWNER || m.role == MembershipRole.ADMIN) &&
    s.teams.any fun tm => tm.id == m.teamId && tm.isOrganization).map (·.teamId)

/-- Same lookup in the second variant, which additionally requires that the
own membership of the admin be accepted. -/
def adminOrgLookupV2 (s : Store) (adminUserId : Int) : Option Int :=
  (s.memberships.find? fun m =>
    m.userId == adminUserId && m.accepted &&
    (m.role == MembershipRole.OWNER || m.role == MembershipRole.ADMIN) &&
    s.teams.any fun tm => tm.id == m.teamId && tm.isOrganization).map (·.teamId)

/-- Model of `getAccessibleUsers` (first variant), instrumented with the list of
membership-store queries it issues, in order. The admin lookup is always
issued; the member `findMany` only when the admin has scope and the
candidate list is non-empty. -/
def getAccessibleUsersT (s : Store) (memberUserIds : List Int) (adminUserId : Int) :
    List Int × List MQuery :=
  match adminOrgLookup s adminUserId with
  | none => ([], [MQuery.findFirstAdmin])
  | some orgId =>
    if memberUserIds.length == 0 then ([], [MQuery.findFirstAdmin])
    else
      let memberships := s.memberships.filter fun m =>
        m.teamId == orgId && memberUserIds.contains m.userId && m.accepted
      (memberships.map (·.userId), [MQuery.findFirstAdmin, MQuery.findManyMembers])

/-- Model of `getAccessibleUsers` (first variant): the returned user ids. -/
def getAccessibleUsers (s : Store) (memberUserIds : List Int) (adminUserId : Int) :
    List Int :=
  (getAccessibleUsersT s memberUserIds adminUserId).1

/-- Model of `getAccessibleUsers` (second variant): identical except that the own
membership of the admin must be accepted. -/
def getAccessibleUsersV2 (s : Store) (memberUserIds : List Int) (adminUserId : Int) :
    List Int :=
  match adminOrgLookupV2 s adminUserId with
  | none => []
  | some orgId =>
    if memberUserIds.length == 0 then []
    else
      (s.memberships.filter fun m =>
        m.teamId == orgId && memberUserIds.contains m.userId && m.accepted).map (·.userId)

/-- Model of `retrieveOrgScopedAccessibleUsers` (first variant): all accepted member
ids of the organization of the admin. -/
def retrieveOrgScopedAccessibleUsers (s : Store) (adminId : Int) : List Int :=
  match adminOrgLookup s adminId with
  | none => []
  | some organizationId =>
    (s.memberships.filter fun m => m.teamId == organizationId && m.accepted).map
      (·.userId)

/-! ## Team-group-mapping authorization guard -/

/-- The typed error the guard throws. -/
structure HttpError where
  statusCode : Nat
  message : String
deriving DecidableEq, Repr

/-- A row of the team table as read by the guard: id and parent. -/
structure Team where
  id : Int
  parentId : Option Int
deriving DecidableEq, Repr

/-- Model of `userCanCreateTeamGroupMapping`. The external `canAccessOrganization`
check is a parameter returning (access, message); the team table is the
list `teams`. JavaScript truthiness is made explicit: `!organizationId`
holds for `null` and for `0`, and `if (teamId)` skips the team check for an
absent or zero `teamId`. On success the validated organization id is
returned. -/
def userCanCreateTeamGroupMapping (canAccess : Int → Bool × String)
    (teams : List Team) (organizationId : Option Int) (teamId : Option Int) :
    Except HttpError Int :=
  match organizationId with
  | none => Except.error { statusCode := 400, message := "Could not find organization id" }
  | some oid =>
    if oid == 0 then
      Except.error { statusCode := 400, message := "Could not find organization id" }
    else
      let res := canAccess oid
      if !res.1 then Except.error { statusCode := 400, message := res.2 }
      else
        match teamId with
        | none => Except.ok oid
        | some tid =>
          if tid == 0 then Except.ok oid
          else
            match teams.find? fun tm => tm.id == tid && tm.parentId == some oid with
            | none => Except.error { statusCode := 400, message := "Could not find team" }
            | some _ => Except.ok oid

/-! ## Classification predicates (branches of the if/else-if chain) -/

/-- First branch of the classification chain: the booking starts today. -/
def isTodayB (now : Instant) (b : Booking) : Bool :=
  b.startTime.sameDate now

/-- Second branch: not today, and the start is strictly after the first
instant of the current month and strictly before its last instant. -/
def inMonthRest (now : Instant) (b : Booking) : Bool :=
  !(b.startTime.sameDate now) &&
  ((monthStart now).before b.startTime && b.startTime.before (monthEnd now))

/-- Third branch, for bucket key `k`: neither of the first two branches
applies, the start is strictly after the last instant of the current month, and
its year-month key is `k`. -/
def inFutureMonth (now : Instant) (k : Nat × Nat) (b : Booking) : Bool :=
  !(b.startTime.sameDate now) &&
  !((monthStart now).before b.startTime && b.startTime.before (monthEnd now)) &&
  ((monthEnd now).before b.startTime && (monthKeyOf b.startTime == k))

/-! ## Concrete sample data for witnesses and counterexamples -/

/-- A reference instant: 2026-10-12, 10:00 local time. -/
def nowEx : Instant := ⟨2026, 10, 12, 36000000⟩

/-- A booking starting today. -/
def bToday : Booking := ⟨"t1", ⟨2026, 10, 12, 50000000⟩, none⟩

/-- A booking later in the current month. -/
def bMonth : Booking := ⟨"m1", ⟨2026, 10, 20, 36000000⟩, none⟩

/-- A booking in the first future month. -/
def bNov : Booking := ⟨"n1", ⟨2026, 11, 3, 0⟩, none⟩

/-- A booking in a second future month. -/
def bDec : Booking := ⟨"d1", ⟨2026, 12, 24, 0⟩, none⟩

/-- A booking in a past month (September, while "now" is in October). -/
def bPast : Booking := ⟨"p1", ⟨2026, 9, 15, 36000000⟩, none⟩

/-- Sample input list covering all buckets, future months out of order. -/
def sampleBookings : List Booking := [bDec, bToday, bNov, bMonth]

/-- Three bookings sharing recurring series "a" plus one non-recurring. -/
def sampleRecurring : List Booking :=
  [⟨"a1", ⟨2026, 10, 20, 0⟩, some "a"⟩, ⟨"x1", ⟨2026, 10, 21, 0⟩, none⟩,
   ⟨"a2", ⟨2026, 10, 22, 0⟩, some "a"⟩, ⟨"a3", ⟨2026, 10, 23, 0⟩, some "a"⟩]

/-- Store in which the sole organization-admin membership of admin 1 (OWNER of
organization 10) is not accepted, and user 2 is an accepted member. -/
def storeUnaccepted : Store :=
  ⟨[⟨1, 10, MembershipRole.OWNER, false⟩, ⟨2, 10, MembershipRole.MEMBER, true⟩],
   [⟨10, true⟩]⟩

/-- Store in which admin 1 is an accepted OWNER of organization 10, users 2
and 3 are accepted members, and user 4 is an unaccepted member. -/
def storeOrg : Store :=
  ⟨[⟨1, 10, MembershipRole.OWNER, true⟩, ⟨2, 10, MembershipRole.MEMBER, true⟩,
    ⟨3, 10, MembershipRole.MEMBER, true⟩, ⟨4, 10, MembershipRole.MEMBER, false⟩],
   [⟨10, true⟩]⟩

/-- Store in which user 7 has only a MEMBER membership in organization 10:
no administrative scope. -/
def storeNoScope : Store :=
  ⟨[⟨7, 10, MembershipRole.MEMBER, true⟩], [⟨10, true⟩]⟩

/-- A team table holding one sub-team 5 of organization 1. -/
def teamsEx : List Team := [⟨5, some 1⟩]

/-- An access check that always grants access. -/
def accessYes : Int → Bool × String := fun _ => (true, "ok")

/-! ## Helper lemmas: bucket association list -/

theorem bucketRows_pushBucket (k' k : Nat × Nat) (r : RowData)
    (l : List ((Nat × Nat) × List RowData)) :
    bucketRows k' (pushBucket k r l) =
      bucketRows k' l ++ (if k' = k then [r] else []) := by
  induction l with
  | nil =>
    by_cases h : k' = k
    · subst h; simp [pushBucket, bucketRows]
    · simp [pushBucket, bucketRows, h, Ne.symm h]
  | cons e es ih =>
    by_cases he : e.1 = k
    · by_cases hk : k' = k
      · subst hk; simp [pushBucket, bucketRows, he]
      · have h1 : e.1 ≠ k' := by rw [he]; exact Ne.symm hk
        simp [pushBucket, bucketRows, he, h1, hk, Ne.symm hk]
    · by_cases hek : e.1 = k'
      · have hk : k' ≠ k := fun hh => he (hek.trans hh)
        simp [pushBucket, bucketRows, he, hek, hk]
      · simp [pushBucket, bucketRows, he, hek, ih]

theorem pushBucket_keys (k : Nat × Nat) (r : RowData)
    (l : List ((Nat × Nat) × List RowData)) :
    (pushBucket k r l).map Prod.fst =
      if k ∈ l.map Prod.fst then l.map Prod.fst else l.map Prod.fst ++ [k] := by
  induction l with
  | nil => simp [pushBucket]
  | cons e es ih =>
    by_cases he : e.1 = k
    · simp [pushBucket, he]
    · have h1 : ¬ k = e.1 := fun hh => he hh.symm
      by_cases hm : k ∈ es.map Prod.fst <;>
        simp [pushBucket, he, h1, hm, ih]

theorem pushBucket_ne_nil (k : Nat × Nat) (r : RowData)
    (l : List ((Nat × Nat) × List RowData)) (h : ∀ e ∈ l, e.2 ≠ []) :
    ∀ e ∈ pushBucket k r l, e.2 ≠ [] := by
  induction l with
  | nil =>
    intro e he
    simp [pushBucket] at he
    subst he; simp
  | cons f fs ih =>
    intro e he
    by_cases hf : f.1 = k
    · simp only [pushBucket, hf, if_pos rfl] at he
      rcases List.mem_cons.mp he with rfl | he'
      · simp
      · exact h e (List.mem_cons_of_mem _ he')
    · simp only [pushBucket, hf, if_neg hf] at he
      rcases List.mem_cons.mp he with rfl | he'
      · exact h e (List.mem_cons_self _ _)
      · exact ih (fun x hx => h x (List.mem_cons_of_mem _ hx)) e he'

theorem bucketRows_of_mem (l : List ((Nat × Nat) × List RowData))
    (hnd : (l.map Prod.fst).Nodup) (e : (Nat × Nat) × List RowData) (he : e ∈ l) :
    bucketRows e.1 l = e.2 := by
  induction l with
  | nil => cases he
  | cons f fs ih =>
    rcases List.mem_cons.mp he with rfl | he'
    · simp [bucketRows]
    · rw [List.map_cons, List.nodup_cons] at hnd
      have hne : f.1 ≠ e.1 := by
        intro hh
        exact hnd.1 (hh ▸ List.mem_map.mpr ⟨e, he', rfl⟩)
      simp [bucketRows, hne, ih hnd.2 he']

/-! ## Helper lemmas: one classification step -/

theorem classifyStep_today (now : Instant) (ri : List RecurringInfo)
    (g : GroupedBookings) (b : Booking) :
    (classifyStep now ri g b).today =
      g.today ++ (if isTodayB now b then [rowOf now ri b] else []) := by
  unfold classifyStep isTodayB
  split_ifs with h1 h2 h3 <;> simp [h1]

theorem classifyStep_currentMonth (now : Instant) (ri : List RecurringInfo)
    (g : GroupedBookings) (b : Booking) :
    (classifyStep now ri g b).currentMonth =
      g.currentMonth ++ (if inMonthRest now b then [rowOf now ri b] else []) := by
  unfold classifyStep inMonthRest
  split_ifs with h1 h2 h3 <;> simp_all

theorem classifyStep_bucketRows (now : Instant) (ri : List RecurringInfo)
    (g : GroupedBookings) (b : Booking) (k : Nat × Nat) :
    bucketRows k (classifyStep now ri g b).monthBuckets =
      bucketRows k g.monthBuckets ++
        (if inFutureMonth now k b then [rowOf now ri b] else []) := by
  by_cases h1 : b.startTime.sameDate now = true
  · have hf : inFutureMonth now k b = false := by simp [inFutureMonth, h1]
    simp [classifyStep, h1, hf]
  · replace h1 : b.startTime.sameDate now = false := by simpa using h1
    by_cases h2 : ((monthStart now).before b.startTime &&
        b.startTime.before (monthEnd now)) = true
    · have hf : inFutureMonth now k b = false := by simp [inFutureMonth, h2]
      simp [classifyStep, h1, h2, hf]
    · replace h2 : ((monthStart now).before b.startTime &&
          b.startTime.before (monthEnd now)) = false := by simpa using h2
      by_cases h3 : (monthEnd now).before b.startTime = true
      · have hpush : (classifyStep now ri g b).monthBuckets =
            pushBucket (monthKeyOf b.startTime) (rowOf now ri b) g.monthBuckets := by
          simp [classifyStep, h1, h2, h3]
        rw [hpush, bucketRows_pushBucket]
        by_cases hk : k = monthKeyOf b.startTime
        · subst hk
          have hf : inFutureMonth now (monthKeyOf b.startTime) b = true := by
            simp [inFutureMonth, h1, h2, h3]
          simp [hf]
        · have hb : (monthKeyOf b.startTime == k) = false :=
            beq_eq_false_iff_ne.mpr (Ne.symm hk)
          have hf : inFutureMonth now k b = false := by simp [inFutureMonth, hb]
          simp [hf, hk]
      · replace h3 : (monthEnd now).before b.startTime = false := by simpa using h3
        have hf : inFutureMonth now k b = false := by simp [inFutureMonth, h3]
        simp [classifyStep, h1, h2, h3, hf]

theorem classifyStep_monthBuckets_cases (now : Instant) (ri : List RecurringInfo)
    (g : GroupedBookings) (b : Booking) :
    (classifyStep now ri g b).monthBuckets = g.monthBuckets ∨
    (classifyStep now ri g b).monthBuckets =
      pushBucket (monthKeyOf b.startTime) (rowOf now ri b) g.monthBuckets := by
  unfold classifyStep
  split_ifs <;> simp

/-! ## Helper lemmas: the classification fold -/

theorem foldl_today (now : Instant) (ri : List RecurringInfo)
    (bs : List Booking) (g : GroupedBookings) :
    (bs.foldl (classifyStep now ri) g).today =
      g.today ++ (bs.filter (isTodayB now)).map (rowOf now ri) := by
  induction bs generalizing g with
  | nil => simp
  | cons b bs ih =>
    rw [List.foldl_cons, ih, classifyStep_today, List.filter_cons]
    by_cases h : isTodayB now b = true <;> simp [h]

theorem foldl_currentMonth (now : Instant) (ri : List RecurringInfo)
    (bs : List Booking) (g : GroupedBookings) :
    (bs.foldl (classifyStep now ri) g).currentMonth =
      g.currentMonth ++ (bs.filter (inMonthRest now)).map (rowOf now ri) := by
  induction bs generalizing g with
  | nil => simp
  | cons b bs ih =>
    rw [List.foldl_cons, ih, classifyStep_currentMonth, List.filter_cons]
    by_cases h : inMonthRest now b = true <;> simp [h]

theorem foldl_bucketRows (now : Instant) (ri : List RecurringInfo) (k : Nat × Nat)
    (bs : List Booking) (g : GroupedBookings) :
    bucketRows k (bs.foldl (classifyStep now ri) g).monthBuckets =
      bucketRows k g.monthBuckets ++
        (bs.filter (inFutureMonth now k)).map (rowOf now ri) := by
  induction bs generalizing g with
  | nil => simp
  | cons b bs ih =>
    rw [List.foldl_cons, ih, classifyStep_bucketRows, List.filter_cons]
    by_cases h : inFutureMonth now k b = true <;> simp [h]

theorem foldl_buckets_inv (now : Instant) (ri : List RecurringInfo)
    (bs : List Booking) (g : GroupedBookings)
    (h1 : ((g.monthBuckets.map Prod.fst)).Nodup)
    (h2 : ∀ e ∈ g.monthBuckets, e.2 ≠ []) :
    ((bs.foldl (classifyStep now ri) g).monthBuckets.map Prod.fst).Nodup ∧
    (∀ e ∈ (bs.foldl (classifyStep now ri) g).monthBuckets, e.2 ≠ []) := by
  induction bs generalizing g with
  | nil => exact ⟨h1, h2⟩
  | cons b bs ih =>
    rw [List.foldl_cons]
    apply ih
    · rcases classifyStep_monthBuckets_cases now ri g b with h | h
      · rw [h]; exact h1
      · rw [h, pushBucket_keys]
        split
        · exact h1
        · rename_i hk
          simp only [List.nodup_append, List.nodup_cons, List.not_mem_nil,
            not_false_iff, List.nodup_nil, and_true, true_and]
          exact ⟨h1, fun x hx hx1 => hk (by simpa [List.mem_singleton.mp hx1] using hx)⟩
    · rcases classifyStep_monthBuckets_cases now ri g b with h | h
      · rw [h]; exact h2
      · rw [h]; exact pushBucket_ne_nil _ _ _ h2

/-! ## Helper lemmas: bucket key order -/

theorem keyLe_trans (a b c : Nat × Nat) (h1 : keyLe a b = true)
    (h2 : keyLe b c = true) : keyLe a c = true := by
  simp only [keyLe, Bool.or_eq_true, Bool.and_eq_true, decide_eq_true_eq,
    beq_iff_eq] at *
  omega

theorem keyLe_total (a b : Nat × Nat) : (keyLe a b || keyLe b a) = true := by
  simp only [keyLe, Bool.or_eq_true, Bool.and_eq_true, decide_eq_true_eq,
    beq_iff_eq]
  omega

theorem keyLe_ne_lt (a b : Nat × Nat) (h1 : keyLe a b = true) (h2 : a ≠ b) :
    keyLt a b := by
  simp only [keyLe, Bool.or_eq_true, Bool.and_eq_true, decide_eq_true_eq,
    beq_iff_eq] at h1
  rw [Ne, Prod.ext_iff, not_and_or] at h2
  unfold keyLt
  rcases h2 with h2 | h2 <;> omega

theorem flatMap_sep_of_ne_nil (lbl : (Nat × Nat) × List RowData → String)
    (l : List ((Nat × Nat) × List RowData)) (h : ∀ e ∈ l, e.2 ≠ []) :
    (l.flatMap fun e =>
      if decide (e.2.length > 0) then RowData.separator (lbl e) :: e.2 else []) =
    l.flatMap fun e => RowData.separator (lbl e) :: e.2 := by
  induction l with
  | nil => rfl
  | cons e es ih =>
    rw [List.flatMap_cons, List.flatMap_cons,
      ih fun x hx => h x (List.mem_cons_of_mem _ hx)]
    have hlen : 0 < e.2.length := List.length_pos.mpr (h e (List.mem_cons_self _ _))
    simp [hlen]

/-! ## Helper lemmas: recurring dedup -/

theorem filterBookingsAux_false (bs : List Booking) (seen : List String) :
    filterBookingsAux false bs seen = bs := by
  induction bs with
  | nil => rfl
  | cons b bs ih => simp [filterBookingsAux, ih]

theorem filterBookingsAux_step_none (b : Booking) (bs : List Booking)
    (seen : List String) (hb : b.recurringEventId = none) :
    filterBookingsAux true (b :: bs) seen = b :: filterBookingsAux true bs seen := by
  simp [filterBookingsAux, hb]

theorem filterBookingsAux_step_seen (b : Booking) (bs : List Booking)
    (seen : List String) (r : String) (hb : b.recurringEventId = some r)
    (hr : r ∈ seen) :
    filterBookingsAux true (b :: bs) seen = filterBookingsAux true bs seen := by
  simp [filterBookingsAux, hb, hr]

theorem filterBookingsAux_step_new (b : Booking) (bs : List Booking)
    (seen : List String) (r : String) (hb : b.recurringEventId = some r)
    (hr : r ∉ seen) :
    filterBookingsAux true (b :: bs) seen =
      b :: filterBookingsAux true bs (r :: seen) := by
  simp [filterBookingsAux, hb, hr]

theorem filterBookingsAux_filter_some (bs : List Booking) (seen : List String)
    (rid : String) :
    (filterBookingsAux true bs seen).filter
        (fun b => b.recurringEventId == some rid) =
      if rid ∈ seen then []
      else (bs.filter (fun b => b.recurringEventId == some rid)).take 1 := by
  induction bs generalizing seen with
  | nil => simp [filterBookingsAux]
  | cons b bs ih =>
    match hb : b.recurringEventId with
    | none =>
      have hp : (b.recurringEventId == some rid) = false := by simp [hb]
      rw [filterBookingsAux_step_none b bs seen hb, List.filter_cons,
        List.filter_cons, ih seen]
      simp [hp]
    | some r =>
      by_cases hr : r ∈ seen
      · rw [filterBookingsAux_step_seen b bs seen r hb hr, ih seen, List.filter_cons]
        by_cases he : rid ∈ seen
        · simp [he]
        · have hrr : (b.recurringEventId == some rid) = false := by
            rw [hb]
            simp only [beq_eq_false_iff_ne, ne_eq, Option.some.injEq]
            exact fun hh => he (hh ▸ hr)
          simp [he, hrr]
      · rw [filterBookingsAux_step_new b bs seen r hb hr, List.filter_cons,
          ih (r :: seen)]
        by_cases he : rid = r
        · subst he
          have hrr : (b.recurringEventId == some rid) = true := by simp [hb]
          simp [hr, hrr, List.filter_cons]
        · have hrr : (b.recurringEventId == some rid) = false := by
            rw [hb]
            simp only [beq_eq_false_iff_ne, ne_eq, Option.some.injEq]
            exact fun hh => he hh.symm
          have hm : (rid ∈ r :: seen) ↔ (rid ∈ seen) := by
            simp [List.mem_cons, he]
          by_cases hs : rid ∈ seen
          · simp [hs, hm.mpr hs, hrr]
          · simp [hs, he, hrr, List.filter_cons, List.mem_cons]

theorem filterBookingsAux_filter_none (bs : List Booking) (seen : List String) :
    (filterBookingsAux true bs seen).filter (fun b => b.recurringEventId == none) =
      bs.filter (fun b => b.recurringEventId == none) := by
  induction bs generalizing seen with
  | nil => rfl
  | cons b bs ih =>
    match hb : b.recurringEventId with
    | none =>
      have hp : (b.recurringEventId == (none : Option String)) = true := by
        simp [hb]
      rw [filterBookingsAux_step_none b bs seen hb, List.filter_cons,
        List.filter_cons, ih seen]
    | some r =>
      have hp : (b.recurringEventId == (none : Option String)) = false := by
        simp [hb]
      by_cases hr : r ∈ seen
      · rw [filterBookingsAux_step_seen b bs seen r hb hr, ih seen, List.filter_cons]
        simp [hp]
      · rw [filterBookingsAux_step_new b bs seen r hb hr, List.filter_cons,
          ih (r :: seen), List.filter_cons]

/-! ## Helper lemmas: grouped buckets, characterized -/

theorem groupedBookings_today_eq (now : Instant) (ri : List RecurringInfo)
    (status : String) (bookings : List Booking) :
    (groupedBookings now ri status bookings).today =
      ((keptBookings status bookings).filter (isTodayB now)).map (rowOf now ri) := by
  unfold groupedBookings
  rw [foldl_today]
  simp

theorem groupedBookings_currentMonth_eq (now : Instant) (ri : List RecurringInfo)
    (status : String) (bookings : List Booking) :
    (groupedBookings now ri status bookings).currentMonth =
      ((keptBookings status bookings).filter (inMonthRest now)).map (rowOf now ri) := by
  unfold groupedBookings
  rw [foldl_currentMonth]
  simp

theorem groupedBookings_bucketRows_eq (now : Instant) (ri : List RecurringInfo)
    (status : String) (bookings : List Booking) (k : Nat × Nat) :
    bucketRows k (groupedBookings now ri status bookings).monthBuckets =
      ((keptBookings status bookings).filter (inFutureMonth now k)).map
        (rowOf now ri) := by
  unfold groupedBookings
  rw [foldl_bucketRows]
  simp [bucketRows]

theorem groupedBookings_buckets_inv (now : Instant) (ri : List RecurringInfo)
    (status : String) (bookings : List Booking) :
    ((groupedBookings now ri status bookings).monthBuckets.map Prod.fst).Nodup ∧
    (∀ e ∈ (groupedBookings now ri status bookings).monthBuckets, e.2 ≠ []) := by
  unfold groupedBookings
  exact foldl_buckets_inv now ri _ ⟨[], [], []⟩ (by simp) (by simp)

theorem branches_exclusive (now : Instant) (b : Booking) (k : Nat × Nat) :
    (isTodayB now b && inMonthRest now b) = false ∧
    (isTodayB now b && inFutureMonth now k b) = false ∧
    (inMonthRest now b && inFutureMonth now k b) = false := by
  unfold isTodayB inMonthRest inFutureMonth
  cases hs : b.startTime.sameDate now <;>
    cases hrange : ((monthStart now).before b.startTime &&
      b.startTime.before (monthEnd now)) <;> simp [hs, hrange]

/-! ## Claims -/

/-- C3: when the status tab is recurring, unconfirmed, or cancelled, the
dedup step keeps, for every recurring series id, exactly the first
occurrence in input order (one visible row per series) and keeps every
booking whose recurring id is null; for every other status no dedup occurs
and all bookings are kept. -/
theorem C3_recurring_dedup (status : String) (bookings : List Booking) :
    (dedupStatuses status = true →
      (∀ rid : String,
        (keptBookings status bookings).filter
            (fun b => b.recurringEventId == some rid) =
          (bookings.filter (fun b => b.recurringEventId == some rid)).take 1) ∧
      (keptBookings status bookings).filter
          (fun b => b.recurringEventId == none) =
        bookings.filter (fun b => b.recurringEventId == none)) ∧
    (dedupStatuses status = false → keptBookings status bookings = bookings) := by
  constructor
  · intro hd
    unfold keptBookings
    rw [hd]
    refine ⟨fun rid => ?_, filterBookingsAux_filter_none bookings []⟩
    rw [filterBookingsAux_filter_some]
    simp
  · intro hd
    unfold keptBookings
    rw [hd]
    exact filterBookingsAux_false bookings []

/-- Witness for C3: status "cancelled", three bookings of series "a" and one
non-recurring booking; exactly the first series occurrence survives. -/
theorem C3_recurring_dedup_witness :
    (keptBookings "cancelled" sampleRecurring).filter
        (fun b => b.recurringEventId == some "a") =
      (sampleRecurring.filter (fun b => b.recurringEventId == some "a")).take 1 :=
  ((C3_recurring_dedup "cancelled" sampleRecurring).1 rfl).1 "a"

/-- C5: the two getAccessibleUsers variants are not extensionally equal: on
a store where the sole organization OWNER membership of the admin is unaccepted,
the first variant returns [2] while the second returns []. -/
theorem C5_variants_differ :
    getAccessibleUsers storeUnaccepted [2] 1 = [2] ∧
    getAccessibleUsersV2 storeUnaccepted [2] 1 = [] ∧
    getAccessibleUsers storeUnaccepted [2] 1 ≠
      getAccessibleUsersV2 storeUnaccepted [2] 1 :=
  ⟨rfl, rfl, by decide⟩

/-- C6 (amended): with an empty candidate list the resolver returns the
empty list having issued only the admin-membership lookup; the candidate
findMany round trip is skipped. (As literally stated — "without issuing any
query to the membership store" — the claim fails; see the counterexample.) -/
theorem C6_empty_candidates (s : Store) (adminUserId : Int) :
    getAccessibleUsersT s [] adminUserId = ([], [MQuery.findFirstAdmin]) := by
  unfold getAccessibleUsersT
  cases adminOrgLookup s adminUserId <;> simp

/-- C6 as stated is false: even with an empty candidate list, the
admin-membership lookup — a query to the membership store — is issued. -/
theorem C6_counterexample :
    (getAccessibleUsersT storeOrg [] 1).1 = [] ∧
    (getAccessibleUsersT storeOrg [] 1).2 ≠ [] :=
  ⟨rfl, by decide⟩

/-- C8: an admin with no OWNER/ADMIN membership in an organization-flagged
team gets an empty list (not an error) from both resolver operations,
whatever the candidate list. -/
theorem C8_no_scope_empty (s : Store) (adminId : Int) (memberUserIds : List Int)
    (h : ∀ m ∈ s.memberships, ¬(m.userId = adminId ∧
      (m.role = MembershipRole.OWNER ∨ m.role = MembershipRole.ADMIN) ∧
      ∃ tm ∈ s.teams, tm.id = m.teamId ∧ tm.isOrganization = true)) :
    getAccessibleUsers s memberUserIds adminId = [] ∧
    retrieveOrgScopedAccessibleUsers s adminId = [] := by
  have hl : adminOrgLookup s adminId = none := by
    unfold adminOrgLookup
    rw [List.find?_eq_none.mpr]
    · rfl
    · intro m hm
      simp only [Bool.and_eq_true, beq_iff_eq, Bool.or_eq_true, List.any_eq_true]
      rintro ⟨⟨h1, h2⟩, tm, htm, h3⟩
      exact h m hm ⟨h1, h2, tm, htm, h3⟩
  constructor
  · unfold getAccessibleUsers getAccessibleUsersT
    rw [hl]
  · unfold retrieveOrgScopedAccessibleUsers
    rw [hl]

/-- Witness for C8: user 7 holds only a MEMBER membership, so both resolver
operations return the empty list. -/
theorem C8_no_scope_empty_witness :
    getAccessibleUsers storeNoScope [2, 3] 7 = [] ∧
    retrieveOrgScopedAccessibleUsers storeNoScope 7 = [] :=
  C8_no_scope_empty storeNoScope 7 [2, 3] (by decide)

/-- C9: with admin scope over `orgId` and a non-empty candidate list, an id
is in the result iff it is a candidate with an accepted membership in the
organization of the admin — candidates without such a membership are excluded
and every returned id is drawn from the candidates (set semantics). -/
theorem C9_filtered_members (s : Store) (adminId orgId : Int)
    (memberUserIds : List Int) (u : Int)
    (h1 : adminOrgLookup s adminId = some orgId) (h2 : memberUserIds ≠ []) :
    u ∈ getAccessibleUsers s memberUserIds adminId ↔
      (u ∈ memberUserIds ∧
        ∃ m ∈ s.memberships, m.userId = u ∧ m.teamId = orgId ∧
          m.accepted = true) := by
  obtain ⟨x, xs, rfl⟩ := List.exists_cons_of_ne_nil h2
  unfold getAccessibleUsers getAccessibleUsersT
  rw [h1]
  have hlen : (((x :: xs).length == 0)) = false := by simp
  rw [hlen]
  simp only [Bool.false_eq_true, if_false, List.mem_map, List.mem_filter,
    Bool.and_eq_true, beq_iff_eq, List.contains, List.elem_iff]
  constructor
  · rintro ⟨m, ⟨hm, ⟨hteam, hcont⟩, hacc⟩, huid⟩
    exact ⟨huid ▸ hcont, m, hm, huid, hteam, hacc⟩
  · rintro ⟨hu, m, hm, huid, hteam, hacc⟩
    exact ⟨m, ⟨hm, ⟨hteam, huid ▸ hu⟩, hacc⟩, huid⟩

/-- Witness for C9: in storeOrg (admin 1 administers organization 10), id 2
is accepted and returned; the iff instantiates concretely. -/
theorem C9_filtered_members_witness :
    (2 : Int) ∈ getAccessibleUsers storeOrg [2, 4, 9] 1 ↔
      ((2 : Int) ∈ [(2 : Int), 4, 9] ∧
        ∃ m ∈ storeOrg.memberships, m.userId = 2 ∧ m.teamId = 10 ∧
          m.accepted = true) :=
  C9_filtered_members storeOrg 1 10 [2, 4, 9] 2 rfl (by decide)

/-- C4 as stated is false at teamId 0: with organization id 1 and supplied
teamId 0 the guard succeeds, although no team with id 0 and parent 1 exists
(the team table is empty). -/
theorem C4_counterexample :
    userCanCreateTeamGroupMapping accessYes [] (some 1) (some 0) =
      Except.ok 1 ∧
    ([] : List Team).find?
      (fun tm => tm.id == (0 : Int) && tm.parentId == some (1 : Int)) = none :=
  ⟨rfl, rfl⟩

theorem guard_some_some (canAccess : Int → Bool × String) (teams : List Team)
    (oid tid : Int) :
    userCanCreateTeamGroupMapping canAccess teams (some oid) (some tid) =
      (if oid == 0 then
        Except.error { statusCode := 400, message := "Could not find organization id" }
      else if !(canAccess oid).1 then
        Except.error { statusCode := 400, message := (canAccess oid).2 }
      else if tid == 0 then Except.ok oid
      else
        match teams.find? fun tm => tm.id == tid && tm.parentId == some oid with
        | none => Except.error { statusCode := 400, message := "Could not find team" }
        | some _ => Except.ok oid) := rfl

theorem guard_some_none (canAccess : Int → Bool × String) (teams : List Team)
    (oid : Int) :
    userCanCreateTeamGroupMapping canAccess teams (some oid) none =
      (if oid == 0 then
        Except.error { statusCode := 400, message := "Could not find organization id" }
      else if !(canAccess oid).1 then
        Except.error { statusCode := 400, message := (canAccess oid).2 }
      else Except.ok oid) := rfl

/-- C4 (amended): (a) a null organization id always raises the 400 "Could
not find organization id" error; (b) for a supplied non-zero teamId,
success requires a team with that id whose parent is exactly the given
organization id (a teamId of 0 skips this check — see C10); (c) whenever no
error is raised, the returned value is the validated organization id. -/
theorem C4_guard (canAccess : Int → Bool × String) (teams : List Team) :
    (∀ teamId, userCanCreateTeamGroupMapping canAccess teams none teamId =
      Except.error { statusCode := 400, message := "Could not find organization id" }) ∧
    (∀ oid tid r, tid ≠ 0 →
      userCanCreateTeamGroupMapping canAccess teams (some oid) (some tid) =
        Except.ok r →
      ∃ tm ∈ teams, tm.id = tid ∧ tm.parentId = some oid) ∧
    (∀ organizationId teamId r,
      userCanCreateTeamGroupMapping canAccess teams organizationId teamId =
        Except.ok r →
      organizationId = some r) := by
  refine ⟨fun teamId => rfl, ?_, ?_⟩
  · intro oid tid r htid hok
    rw [guard_some_some] at hok
    by_cases h0 : oid = 0
    · subst h0; simp at hok
    · rw [show (oid == (0 : Int)) = false from beq_eq_false_iff_ne.mpr h0] at hok
      simp only [Bool.false_eq_true, if_false] at hok
      by_cases hacc : (canAccess oid).1
      · rw [hacc] at hok
        simp only [Bool.not_true, Bool.false_eq_true, if_false] at hok
        rw [show (tid == (0 : Int)) = false from beq_eq_false_iff_ne.mpr htid]
          at hok
        simp only [Bool.false_eq_true, if_false] at hok
        cases hf : teams.find?
            (fun tm => tm.id == tid && tm.parentId == some oid) with
        | none => rw [hf] at hok; simp at hok
        | some tm =>
          have hp := List.find?_some hf
          rw [Bool.and_eq_true, beq_iff_eq, beq_iff_eq] at hp
          exact ⟨tm, List.mem_of_find?_eq_some hf, hp.1, hp.2⟩
      · rw [show (canAccess oid).1 = false by simpa using hacc] at hok
        simp at hok
  · intro organizationId teamId r hok
    cases organizationId with
    | none => exact absurd hok (by simp [userCanCreateTeamGroupMapping])
    | some oid =>
      cases teamId with
      | none =>
        rw [guard_some_none] at hok
        by_cases h0 : oid = 0
        · subst h0; simp at hok
        · rw [show (oid == (0 : Int)) = false from beq_eq_false_iff_ne.mpr h0]
            at hok
          simp only [Bool.false_eq_true, if_false] at hok
          by_cases hacc : (canAccess oid).1
          · rw [hacc] at hok
            simp only [Bool.not_true, Bool.false_eq_true, if_false,
              Except.ok.injEq] at hok
            rw [hok]
          · rw [show (canAccess oid).1 = false by simpa using hacc] at hok
            simp at hok
      | some tid =>
        rw [guard_some_some] at hok
        by_cases h0 : oid = 0
        · subst h0; simp at hok
        · rw [show (oid == (0 : Int)) = false from beq_eq_false_iff_ne.mpr h0]
            at hok
          simp only [Bool.false_eq_true, if_false] at hok
          by_cases hacc : (canAccess oid).1
          · rw [hacc] at hok
            simp only [Bool.not_true, Bool.false_eq_true, if_false] at hok
            by_cases ht : tid = 0
            · subst ht
              simp only [show ((0 : Int) == 0) = true from rfl, if_true,
                Except.ok.injEq] at hok
              rw [hok]
            · rw [show (tid == (0 : Int)) = false from beq_eq_false_iff_ne.mpr ht]
                at hok
              simp only [Bool.false_eq_true, if_false] at hok
              cases hf : teams.find?
                  (fun tm => tm.id == tid && tm.parentId == some oid) with
              | none => rw [hf] at hok; simp at hok
              | some tm =>
                rw [hf] at hok
                rw [Except.ok.injEq] at hok
                rw [hok]
          · rw [show (canAccess oid).1 = false by simpa using hacc] at hok
            simp at hok

/-- Witness for C4: organization 1, sub-team 5 with parent 1: the successful
call forces the existence of the matching team. -/
theorem C4_guard_witness :
    ∃ tm ∈ teamsEx, tm.id = (5 : Int) ∧ tm.parentId = some (1 : Int) :=
  (C4_guard accessYes teamsEx).2.1 1 5 1 (by decide) rfl

/-- C10: JavaScript truthiness in the guard: organizationId 0 behaves
exactly like an absent organization id (same 400 error), and teamId 0
skips the team-existence check entirely — whenever the access check
passes, the call succeeds with the organization id, for every team table. -/
theorem C10_truthiness (canAccess : Int → Bool × String) (teams : List Team) :
    (∀ teamId,
      userCanCreateTeamGroupMapping canAccess teams (some 0) teamId =
        userCanCreateTeamGroupMapping canAccess teams none teamId ∧
      userCanCreateTeamGroupMapping canAccess teams (some 0) teamId =
        Except.error { statusCode := 400, message := "Could not find organization id" }) ∧
    (∀ oid, oid ≠ 0 → (canAccess oid).1 = true →
      userCanCreateTeamGroupMapping canAccess teams (some oid) (some 0) =
        Except.ok oid) := by
  constructor
  · exact fun teamId => ⟨rfl, rfl⟩
  · intro oid h0 hacc
    rw [guard_some_some]
    rw [show (oid == (0 : Int)) = false from beq_eq_false_iff_ne.mpr h0]
    simp [hacc]

/-- Witness for C10: organization 1 with access granted and teamId 0
succeeds with an empty team table. -/
theorem C10_truthiness_witness :
    userCanCreateTeamGroupMapping (fun _ => (true, "granted")) [] (some 1)
      (some 0) = Except.ok 1 :=
  (C10_truthiness (fun _ => (true, "granted")) []).2 1 (by decide) rfl

/-- C2 as stated is false: with "now" on 2026-10-12, the booking starting
2026-09-15 survives the dedup step but is placed in no bucket at all —
none of the three bucket kinds receives its row. -/
theorem C2_counterexample :
    keptBookings "upcoming" [bPast] = [bPast] ∧
    groupedBookings nowEx [] "upcoming" [bPast] =
      { today := [], currentMonth := [], monthBuckets := [] } :=
  ⟨rfl, rfl⟩

/-- C2 (amended): each kept booking is classified into at most one bucket,
by the mutually exclusive branch predicates: today iff its start date
equals the date of today; current-month iff (not today and) strictly after the
first instant of the month and strictly before its last; the future bucket
of its year-month key iff strictly after the last instant of the month. Kept
bookings matching no branch (start at or before the first instant of the current
month on a non-today date, or exactly at the month-end instant) receive
no row. -/
theorem C2_bucket_partition (now : Instant) (ri : List RecurringInfo)
    (status : String) (bookings : List Booking) :
    (groupedBookings now ri status bookings).today =
      ((keptBookings status bookings).filter (isTodayB now)).map (rowOf now ri) ∧
    (groupedBookings now ri status bookings).currentMonth =
      ((keptBookings status bookings).filter (inMonthRest now)).map
        (rowOf now ri) ∧
    (∀ k, bucketRows k (groupedBookings now ri status bookings).monthBuckets =
      ((keptBookings status bookings).filter (inFutureMonth now k)).map
        (rowOf now ri)) ∧
    (∀ b k, (isTodayB now b && inMonthRest now b) = false ∧
      (isTodayB now b && inFutureMonth now k b) = false ∧
      (inMonthRest now b && inFutureMonth now k b) = false) :=
  ⟨groupedBookings_today_eq now ri status bookings,
   groupedBookings_currentMonth_eq now ri status bookings,
   fun k => groupedBookings_bucketRows_eq now ri status bookings k,
   fun b k => branches_exclusive now b k⟩

theorem not_today_of_inMonthRest (now : Instant) (b : Booking)
    (h : inMonthRest now b = true) : b.startTime.sameDate now = false := by
  have hex := (branches_exclusive now b (0, 0)).1
  cases hsd : b.startTime.sameDate now
  · rfl
  · exfalso
    simp [isTodayB, hsd, h] at hex

theorem not_today_of_inFutureMonth (now : Instant) (k : Nat × Nat) (b : Booking)
    (h : inFutureMonth now k b = true) : b.startTime.sameDate now = false := by
  have hex := (branches_exclusive now b k).2.1
  cases hsd : b.startTime.sameDate now
  · rfl
  · exfalso
    simp [isTodayB, hsd, h] at hex

/-- C7: for every status other than "upcoming" the emitted row sequence is
the current-month data rows followed by the future-month data rows, with no
separator rows (every emitted row is a data row, with isToday false), and
every row of the today bucket is absent from the output. -/
theorem C7_flat_non_upcoming (t : String → String) (now : Instant)
    (ri : List RecurringInfo) (status : String) (bookings : List Booking)
    (h : status ≠ "upcoming") :
    buildRows t now ri status bookings =
      (groupedBookings now ri status bookings).currentMonth ++
        ((groupedBookings now ri status bookings).monthBuckets.map
          Prod.snd).flatten ∧
    (∀ r ∈ buildRows t now ri status bookings,
      ∃ b i, r = RowData.data b false i) ∧
    (∀ r ∈ (groupedBookings now ri status bookings).today,
      r ∉ buildRows t now ri status bookings) := by
  have heq : buildRows t now ri status bookings =
      (groupedBookings now ri status bookings).currentMonth ++
        ((groupedBookings now ri status bookings).monthBuckets.map
          Prod.snd).flatten := by
    unfold buildRows finalData flatData
    rw [if_pos h]
  have hinv := groupedBookings_buckets_inv now ri status bookings
  have hdata : ∀ r ∈ buildRows t now ri status bookings,
      ∃ b i, r = RowData.data b false i := by
    rw [heq]
    intro r hr
    rcases List.mem_append.mp hr with hr | hr
    · rw [groupedBookings_currentMonth_eq] at hr
      rcases List.mem_map.mp hr with ⟨b, hb, rfl⟩
      have hfalse := not_today_of_inMonthRest now b (List.mem_filter.mp hb).2
      exact ⟨b, ri.find? fun info => info.recurringEventId == b.recurringEventId,
        by unfold rowOf; rw [hfalse]⟩
    · rcases List.mem_flatten.mp hr with ⟨l, hl, hrl⟩
      rcases List.mem_map.mp hl with ⟨e, he, rfl⟩
      have hrows := bucketRows_of_mem _ hinv.1 e he
      rw [← hrows, groupedBookings_bucketRows_eq] at hrl
      rcases List.mem_map.mp hrl with ⟨b, hb, rfl⟩
      have hfalse := not_today_of_inFutureMonth now e.1 b (List.mem_filter.mp hb).2
      exact ⟨b, ri.find? fun info => info.recurringEventId == b.recurringEventId,
        by unfold rowOf; rw [hfalse]⟩
  refine ⟨heq, hdata, ?_⟩
  intro r hrT hrRows
  rw [groupedBookings_today_eq] at hrT
  rcases List.mem_map.mp hrT with ⟨b, hb, rfl⟩
  have htrue : b.startTime.sameDate now = true := (List.mem_filter.mp hb).2
  rcases hdata _ hrRows with ⟨b', i, heq2⟩
  unfold rowOf at heq2
  rw [htrue] at heq2
  simp at heq2

/-- Witness for C7 at status "cancelled" on the sample bookings: the rows
are the flat concatenation without separators. -/
theorem C7_flat_non_upcoming_witness :
    buildRows tEn nowEx [] "cancelled" sampleBookings =
      (groupedBookings nowEx [] "cancelled" sampleBookings).currentMonth ++
        ((groupedBookings nowEx [] "cancelled" sampleBookings).monthBuckets.map
          Prod.snd).flatten :=
  (C7_flat_non_upcoming tEn nowEx [] "cancelled" sampleBookings (by decide)).1

/-- Witness for C2 (amended): the November bucket of the sample input equals
the filtered kept bookings of that month. -/
theorem C2_bucket_partition_witness :
    bucketRows (2026, 11)
        (groupedBookings nowEx [] "upcoming" sampleBookings).monthBuckets =
      ((keptBookings "upcoming" sampleBookings).filter
        (inFutureMonth nowEx (2026, 11))).map (rowOf nowEx []) :=
  (C2_bucket_partition nowEx [] "upcoming" sampleBookings).2.2.1 (2026, 11)

/-- C1: under status "upcoming" the emitted row sequence is exactly: a
"Today" separator followed by the today rows when that bucket is non-empty,
then a "This Month" separator followed by the remaining current-month rows
when that bucket is non-empty, then, for each future-month bucket taken in
ascending chronological order of its year-month key, a separator labeled
with that month followed by the rows of that bucket. The sorted buckets are a
permutation of the computed buckets, their keys are strictly ascending, and
every bucket is non-empty — empty buckets contribute nothing and no other
rows appear. -/
theorem C1_upcoming_sections (now : Instant) (ri : List RecurringInfo)
    (bookings : List Booking) :
    buildRows tEn now ri "upcoming" bookings =
      (if (groupedBookings now ri "upcoming" bookings).today = [] then []
       else RowData.separator "Today" ::
         (groupedBookings now ri "upcoming" bookings).today) ++
      (if (groupedBookings now ri "upcoming" bookings).currentMonth = [] then []
       else RowData.separator "This Month" ::
         (groupedBookings now ri "upcoming" bookings).currentMonth) ++
      ((sortBuckets
          (groupedBookings now ri "upcoming" bookings).monthBuckets).flatMap
        fun e => RowData.separator (monthLabel e.1) :: e.2) ∧
    ((sortBuckets
        (groupedBookings now ri "upcoming" bookings).monthBuckets).map
      Prod.fst).Pairwise keyLt ∧
    (sortBuckets
        (groupedBookings now ri "upcoming" bookings).monthBuckets).Perm
      (groupedBookings now ri "upcoming" bookings).monthBuckets ∧
    (∀ e ∈ (groupedBookings now ri "upcoming" bookings).monthBuckets,
      e.2 ≠ []) := by
  have hinv := groupedBookings_buckets_inv now ri "upcoming" bookings
  have hperm : (sortBuckets
      (groupedBookings now ri "upcoming" bookings).monthBuckets).Perm
      (groupedBookings now ri "upcoming" bookings).monthBuckets :=
    List.mergeSort_perm _ _
  have hsorted : (sortBuckets
      (groupedBookings now ri "upcoming" bookings).monthBuckets).Pairwise
      (fun a b => keyLe a.1 b.1 = true) :=
    List.sorted_mergeSort
      (fun a b c hab hbc => keyLe_trans a.1 b.1 c.1 hab hbc)
      (fun a b => keyLe_total a.1 b.1) _
  have hnd : ((sortBuckets
      (groupedBookings now ri "upcoming" bookings).monthBuckets).map
        Prod.fst).Nodup :=
    ((hperm.map Prod.fst).symm).nodup hinv.1
  have hpw : ((sortBuckets
      (groupedBookings now ri "upcoming" bookings).monthBuckets).map
        Prod.fst).Pairwise keyLt := by
    rw [List.pairwise_map]
    have hne : (sortBuckets
        (groupedBookings now ri "upcoming" bookings).monthBuckets).Pairwise
        (fun a b => a.1 ≠ b.1) := by
      have h2 : ((sortBuckets
          (groupedBookings now ri "upcoming" bookings).monthBuckets).map
            Prod.fst).Pairwise (fun a b => a ≠ b) := hnd
      exact List.pairwise_map.mp h2
    exact (hsorted.and hne).imp fun hab => keyLe_ne_lt _ _ hab.1 hab.2
  refine ⟨?_, hpw, hperm, hinv.2⟩
  have hsne : ∀ e ∈ sortBuckets
      (groupedBookings now ri "upcoming" bookings).monthBuckets, e.2 ≠ [] :=
    fun e he => hinv.2 e (hperm.mem_iff.mp he)
  unfold buildRows finalData
  rw [if_neg (by simp)]
  rw [flatMap_sep_of_ne_nil (fun e => monthLabel e.1) _ hsne]
  have seg : ∀ (xs : List RowData) (lbl : String),
      (if decide (xs.length > 0) then RowData.separator lbl :: xs else []) =
      (if xs = [] then [] else RowData.separator lbl :: xs) := by
    intro xs lbl
    cases xs <;> simp
  rw [seg, seg, show tEn "today" = "Today" from rfl,
    show tEn "this_month" = "This Month" from rfl]

/-- Witness for C1: on the sample input (future months supplied out of
order) the sorted bucket keys are strictly ascending. -/
theorem C1_upcoming_sections_witness :
    ((sortBuckets
        (groupedBookings nowEx [] "upcoming" sampleBookings).monthBuckets).map
      Prod.fst).Pairwise keyLt :=
  (C1_upcoming_sections nowEx [] sampleBookings).2.1
